import Mathlib

/-!
Shallow embedding of the normalization/validation pipeline of
`src/Validation/verify_mongo_data.py` (the core of the
African_energy_data_processing repository), together with proofs about the
claims on its specification.

Python values flowing through the pipeline are modelled by `PyVal`
(None, str, int, float), with floats represented exactly: a finite float is
a rational number, and the non-finite floats (nan, inf, -inf) are explicit
constructors.  Fallible Python code (code that can raise) is embedded as
`Except String _`, where the error string names the Python exception class.
-/

instance {ε α : Type} [DecidableEq ε] [DecidableEq α] : DecidableEq (Except ε α) := fun a b =>
  match a, b with
  | Except.ok x, Except.ok y =>
    if h : x = y then Decidable.isTrue (by rw [h]) else Decidable.isFalse (by simp [h])
  | Except.error x, Except.error y =>
    if h : x = y then Decidable.isTrue (by rw [h]) else Decidable.isFalse (by simp [h])
  | Except.ok _, Except.error _ => Decidable.isFalse (by simp)
  | Except.error _, Except.ok _ => Decidable.isFalse (by simp)

/-- A Python float: finite values are modelled exactly as rationals;
nan, inf and -inf are explicit constructors. -/
inductive FloatVal where
  | fin (q : ℚ)
  | nan
  | inf
  | ninf
deriving DecidableEq, Repr

/-- A Python value as it appears in this pipeline: `None`, a string,
an int, or a float. -/
inductive PyVal where
  | null
  | str (s : String)
  | int (z : ℤ)
  | float (v : FloatVal)
deriving DecidableEq, Repr

/-- Python truthiness (`bool(x)`): `None`, `""`, `0` and `0.0` are falsy;
`nan` and `inf` are truthy. -/
def pyTruthy : PyVal → Bool
  | PyVal.null => false
  | PyVal.str s => s != ""
  | PyVal.int z => z != 0
  | PyVal.float (FloatVal.fin q) => q != 0
  | PyVal.float _ => true

/-- Decimal rendering of a Python float by `str`.  The rendering of a
non-integral finite float is approximated (its exact decimal formatting is
never load-bearing in this pipeline); the non-finite renderings match
Python (`"nan"`, `"inf"`, `"-inf"`). -/
def floatRepr : FloatVal → String
  | FloatVal.nan => "nan"
  | FloatVal.inf => "inf"
  | FloatVal.ninf => "-inf"
  | FloatVal.fin q => if q.den = 1 then toString q.num ++ ".0" else toString q

/-- Python `str(x)` for the values of this pipeline. -/
def pyStr : PyVal → String
  | PyVal.null => "None"
  | PyVal.str s => s
  | PyVal.int z => toString z
  | PyVal.float v => floatRepr v

/-- Python `s.lower()` (ASCII case folding, which covers every string this
pipeline compares). -/
def pyLower (s : String) : String := String.mk (s.data.map Char.toLower)

/-- Python `s.strip()`: remove leading and trailing whitespace. -/
def pyStrip (s : String) : String :=
  String.mk (((s.data.dropWhile Char.isWhitespace).reverse.dropWhile
    Char.isWhitespace).reverse)

/-- Whether `pat` is a prefix of `s` (on character lists). -/
def isPrefixL : List Char → List Char → Bool
  | [], _ => true
  | _ :: _, [] => false
  | a :: as, b :: bs => a == b && isPrefixL as bs

/-- Whether `pat` occurs as a contiguous substring of `s`
(on character lists). -/
def containsSub (pat : List Char) : List Char → Bool
  | [] => pat.isEmpty
  | c :: rest => isPrefixL pat (c :: rest) || containsSub pat rest

/-- Python `pat in s` (substring membership). -/
def strIn (pat s : String) : Bool := containsSub pat.data s.data

/-- Helper for `pySplitWs`: the accumulator holds the current word
reversed. -/
def splitWsAux : List Char → List Char → List String
  | [], acc => if acc.isEmpty then [] else [String.mk acc.reverse]
  | c :: r, acc =>
    if Char.isWhitespace c then
      if acc.isEmpty then splitWsAux r [] else String.mk acc.reverse :: splitWsAux r []
    else splitWsAux r (c :: acc)

/-- Python `s.split()`: split on whitespace runs, dropping empty pieces. -/
def pySplitWs (s : String) : List String := splitWsAux s.data []

/-- Python `s.replace(",", "")`: remove every comma (the only use of
`str.replace` in the source). -/
def removeCommas (s : String) : String :=
  String.mk (s.data.filter (fun c => c != ','))

/-- Digits to a natural number (assumes every character is a digit). -/
def digitsToNat (ds : List Char) : ℕ :=
  ds.foldl (fun a c => 10 * a + (c.toNat - 48)) 0

/-- Split a character list at the first `'e'` (input is already
lower-cased), returning the part before it and, when an `'e'` is present,
the part after it. -/
def splitAtE : List Char → List Char × Option (List Char)
  | [] => ([], Option.none)
  | c :: r =>
    if c = 'e' then ([], some r)
    else
      let p := splitAtE r
      (c :: p.1, p.2)

/-- Parse the mantissa of a decimal literal: `digits`, `digits.digits`,
`.digits` or `digits.` (at least one digit overall).  Returns the digit
string's value together with the number of fractional digits, so the
mantissa denotes `value / 10 ^ fracDigits`. -/
def parseMantissa (cs : List Char) : Option (ℕ × ℕ) :=
  let (ip, rest) := cs.span Char.isDigit
  match rest with
  | [] => if ip = [] then Option.none else some (digitsToNat ip, 0)
  | '.' :: r2 =>
    let (fp, rest2) := r2.span Char.isDigit
    if rest2 = [] ∧ (ip ≠ [] ∨ fp ≠ []) then
      some (digitsToNat (ip ++ fp), fp.length)
    else Option.none
  | _ => Option.none

/-- Assemble a finite float value from sign, mantissa digits, fractional
length and decimal exponent: `sg * m * 10 ^ (ex - k)`, built with a single
`mkRat` so the value is exact. -/
def assembleDec (sg : ℤ) (m : ℕ) (k : ℕ) (ex : ℤ) : FloatVal :=
  let e2 : ℤ := ex - (k : ℤ)
  FloatVal.fin (mkRat (sg * (m : ℤ) * (10 : ℤ) ^ (max e2 0).toNat)
    ((10 : ℕ) ^ ((-e2).toNat)))

/-- Parse the exponent part of a decimal literal: optional sign then
digits, consuming the whole input. -/
def parseExpPart (cs : List Char) : Option ℤ :=
  let p : ℤ × List Char :=
    match cs with
    | '+' :: r => (1, r)
    | '-' :: r => (-1, r)
    | r => (1, r)
  let (ds, rest) := p.2.span Char.isDigit
  if ds ≠ [] ∧ rest = [] then some (p.1 * (digitsToNat ds : ℤ)) else Option.none

/-- Model of Python `float(s)` on a string: strip, optional sign, then
`inf`/`infinity`/`nan` (case-insensitive) or a decimal literal with an
optional exponent.  Arithmetic is exact (no binary rounding or overflow to
inf), which is never load-bearing here. -/
def pyFloat (s : String) : Option FloatVal :=
  let t := pyLower (pyStrip s)
  let p : ℤ × List Char :=
    match t.data with
    | '+' :: r => (1, r)
    | '-' :: r => (-1, r)
    | r => (1, r)
  if p.2 = "inf".data ∨ p.2 = "infinity".data then
    some (if p.1 = 1 then FloatVal.inf else FloatVal.ninf)
  else if p.2 = "nan".data then some FloatVal.nan
  else
    match splitAtE p.2 with
    | (m, Option.none) => (parseMantissa m).map (fun mk => assembleDec p.1 mk.1 mk.2 0)
    | (m, some e) =>
      match parseMantissa m, parseExpPart e with
      | some mk, some ex => some (assembleDec p.1 mk.1 mk.2 ex)
      | _, _ => Option.none

/-- Try to match the regex alternative `[-+]?\d*\.\d+` at the head of the
input (greedy, as in Python `re`). -/
def matchFracAt (cs : List Char) : Option (List Char) :=
  let p : List Char × List Char :=
    match cs with
    | '+' :: r => (['+'], r)
    | '-' :: r => (['-'], r)
    | r => ([], r)
  let (ds, r2) := p.2.span Char.isDigit
  match r2 with
  | '.' :: r3 =>
    let (fs, _) := r3.span Char.isDigit
    if fs = [] then Option.none else some (p.1 ++ ds ++ '.' :: fs)
  | _ => Option.none

/-- Try to match the regex alternative `\d+` at the head of the input. -/
def matchIntAt (cs : List Char) : Option (List Char) :=
  let (ds, _) := cs.span Char.isDigit
  if ds = [] then Option.none else some ds

/-- Model of `re.search(r"[-+]?\d*\.\d+|\d+", s)`: leftmost match wins,
and at a given position the first alternative is preferred. -/
def reSearchNum : List Char → Option String
  | [] => Option.none
  | c :: rest =>
    match matchFracAt (c :: rest) with
    | some m => some (String.mk m)
    | Option.none =>
      match matchIntAt (c :: rest) with
      | some m => some (String.mk m)
      | Option.none => reSearchNum rest

/-- The unit normalization table `UNIT_MAP` of the source, in its
(insertion) order: canonical unit to accepted variant substrings. -/
def UNIT_MAP : List (String × List String) :=
  [("%", ["%", "percent", "percentage"]),
   ("GWh", ["gwh", "giga watt hour", "gwh "]),
   ("MW", ["mw", "megawatt"]),
   ("kWh per capita", ["kwh per capita", "kwh/capita", "kwh per person"]),
   ("kt", ["kt", "kilotonnes", "kt "])]

/-- `normalize_unit` of the source.  Falsy input yields `None`; otherwise
the input is stringified, stripped and lower-cased; the first canonical of
`UNIT_MAP` (nested loop: canonicals in table order, variants in list
order) whose variant occurs as a substring wins; then a residual symbol
check; otherwise the original value is returned stripped — for a
non-string original, Python would raise `AttributeError` on `.strip()`,
which the `Except` models. -/
def normalize_unit (unit_raw : PyVal) : Except String PyVal :=
  if pyTruthy unit_raw then
    let s := pyLower (pyStrip (pyStr unit_raw))
    if s = "" then Except.ok PyVal.null
    else
      match UNIT_MAP.findSome?
          (fun cv => if cv.2.any (fun v => strIn v s) then some cv.1 else Option.none) with
      | some canon => Except.ok (PyVal.str canon)
      | Option.none =>
        if s ∈ (["%", "percent", "percentage"] : List String) then Except.ok (PyVal.str "%")
        else
          match unit_raw with
          | PyVal.str r => Except.ok (PyVal.str (pyStrip r))
          | _ => Except.error "AttributeError"
  else Except.ok PyVal.null

/-- The string path of `to_number_safe` (everything after the numeric
fast path): strip, null tokens, comma removal, first whitespace token,
direct float parse, regex rescue.  `s.split()[0]` on an empty token list
raises `IndexError`, modelled by the `Except`. -/
def tns_str (x : PyVal) : Except String (Option FloatVal) :=
  let s := pyStrip (pyStr x)
  if s = "" ∨ pyLower s ∈ (["nan", "n/a", "na"] : List String) then Except.ok Option.none
  else
    let s1 := removeCommas s
    match (pySplitWs s1).head? with
    | Option.none => Except.error "IndexError"
    | some tok =>
      match pyFloat tok with
      | some f => Except.ok (some f)
      | Option.none =>
        match reSearchNum tok.data with
        | some m => Except.ok (pyFloat m)
        | Option.none => Except.ok Option.none

/-- `to_number_safe` of the source.  `None` maps to `None`; a numeric
input that is not NaN (`isinstance(x, (int, float)) and not math.isnan(x)`)
is returned as `float(x)`; every other input — including the float NaN —
falls through to the string path. -/
def to_number_safe (x : PyVal) : Except String (Option FloatVal) :=
  match x with
  | PyVal.null => Except.ok Option.none
  | PyVal.int z => Except.ok (some (FloatVal.fin (z : ℚ)))
  | PyVal.float FloatVal.nan => tns_str (PyVal.float FloatVal.nan)
  | PyVal.float v => Except.ok (some v)
  | PyVal.str s => tns_str (PyVal.str s)

/-- `YEARS = [str(y) for y in range(2000, 2025)]`. -/
def YEARS : List String := (List.range 25).map (fun i => toString (2000 + i))

/-- `REQUIRED_SCHEMA`: the nine metadata fields followed by the year
columns. -/
def REQUIRED_SCHEMA : List String :=
  ["country", "country_serial", "metric", "unit", "sector", "sub_sector",
   "sub_sub_sector", "source_link", "source"] ++ YEARS

/-- `infer_country_serial`: falsy input gives `None`, otherwise
`abs(hash(x)) % 100000`.  Python's `hash` is salted per process, so it is
passed in as the parameter `h`. -/
def infer_country_serial (h : PyVal → ℤ) (country_name : PyVal) : PyVal :=
  if pyTruthy country_name then PyVal.int (((h country_name).natAbs % 100000 : ℕ) : ℤ)
  else PyVal.null

/-- A raw batch as the normalizer sees it: the dataframe's column names in
order, and the rows, each row listing its cell values in column order. -/
structure DataFrame where
  cols : List String
  rows : List (List PyVal)
deriving DecidableEq, Repr

/-- `row.get(c)` / guarded `row[c]` on a dataframe row: the value in the
column named `c`, or `None` when there is no such column. -/
def rowGet (cols : List String) (row : List PyVal) (c : String) : PyVal :=
  match cols.findIdx? (fun c2 => c2 == c) with
  | some i => row.getD i PyVal.null
  | Option.none => PyVal.null

/-- Keys of a Python dict built by inserting a list of keys in order:
first occurrence of each key keeps its position (used for
`lc_map = {c.lower(): c for c in df.columns}`). -/
def insertOrderDedup {α : Type} [BEq α] (seen : List α) : List α → List α
  | [] => []
  | a :: r =>
    if seen.contains a then insertOrderDedup seen r
    else a :: insertOrderDedup (a :: seen) r

/-- The key list of `lc_map = {c.lower(): c for c in df.columns}`:
lower-cased column names, first occurrence order. -/
def lcKeys (cols : List String) : List String :=
  insertOrderDedup [] (cols.map pyLower)

/-- The value `lc_map[k]`: the dict comprehension overwrites on duplicate
keys, so the value is the last column whose lower-casing is `k`. -/
def lcGet (cols : List String) (k : String) : Option String :=
  (cols.filter (fun c => pyLower c == k)).getLast?

/-- The metric-name patterns, in the enumeration order of the source. -/
def METRIC_PATTERNS : List String := ["metric", "indicator", "series", "name", "variable"]

/-- Whether a lower-cased column name matches the metric heuristic:
`any(x in k for x in ["metric","indicator","series","name","variable"])`. -/
def isMetricName (k : String) : Bool := METRIC_PATTERNS.any (fun x => strIn x k)

/-- `metric_candidates`: keys of `lc_map` matching the metric heuristic,
in `lc_map` key order. -/
def metric_candidates (cols : List String) : List String :=
  (lcKeys cols).filter isMetricName

/-- `unit_candidates`: keys of `lc_map` containing `"unit"` or
`"measure"`. -/
def unit_candidates (cols : List String) : List String :=
  (lcKeys cols).filter (fun k => strIn "unit" k || strIn "measure" k)

/-- `country_candidates`: keys of `lc_map` containing `"country"`. -/
def country_candidates (cols : List String) : List String :=
  (lcKeys cols).filter (fun k => strIn "country" k)

/-- `has_year_cols = any(y in df_raw.columns for y in YEARS)`. -/
def has_year_cols (cols : List String) : Bool :=
  YEARS.any (fun y => cols.contains y)

/-- The loop `for m in metric_candidates: if lc_map.get(m):
metric = row[lc_map[m]]; break` — the first candidate whose original
column name is truthy supplies the metric. -/
def firstCandVal (cols : List String) (row : List PyVal) : List String → PyVal
  | [] => PyVal.null
  | k :: rest =>
    match lcGet cols k with
    | some orig => if orig != "" then rowGet cols row orig else firstCandVal cols row rest
    | Option.none => firstCandVal cols row rest

/-- The metric value obtained from `metric_candidates` (`None` when no
candidate fires). -/
def metricFromCandidates (cols : List String) (row : List PyVal) : PyVal :=
  firstCandVal cols row (metric_candidates cols)

/-- Country extraction:
`row[lc_map[country_candidates[0]]] if ... in row else None`, falling back
to `row.get("country") if "country" in row else None`. -/
def rawCountry (cols : List String) (row : List PyVal) : PyVal :=
  match (country_candidates cols).head? with
  | some k =>
    match lcGet cols k with
    | some orig => if cols.contains orig then rowGet cols row orig else PyVal.null
    | Option.none => PyVal.null
  | Option.none =>
    if cols.contains "country" then rowGet cols row "country" else PyVal.null

/-- Unit extraction: first unit candidate column if any, else a literal
`unit` column, else `None`. -/
def rawUnit (cols : List String) (row : List PyVal) : PyVal :=
  match (unit_candidates cols).head? with
  | some k =>
    match lcGet cols k with
    | some orig => if cols.contains orig then rowGet cols row orig else PyVal.null
    | Option.none => PyVal.null
  | Option.none =>
    if cols.contains "unit" then rowGet cols row "unit" else PyVal.null

/-- Columns tried by the metric fallback scan: not a year column, and not
one of the metadata column names (compared lower-cased). -/
def eligibleCols (cols : List String) : List String :=
  cols.filter (fun c =>
    !(YEARS.contains c) &&
    !((["source", "source_link", "unit", "country", "country_serial"] : List String).contains
      (pyLower c)))

/-- The fallback loop
`for c in df.columns: ... metric = row.get(c); if metric and str(metric).strip(): break`:
`metric` is assigned on every tried column and the loop stops at the first
truthy, non-blank value, so when none qualifies the last tried value (or
the incoming accumulator when no column was tried) remains. -/
def fallbackScan (cols : List String) (row : List PyVal) :
    List String → PyVal → PyVal
  | [], acc => acc
  | c :: rest, _ =>
    let v := rowGet cols row c
    if pyTruthy v && pyStrip (pyStr v) != "" then v
    else fallbackScan cols row rest v

/-- The full metric extraction of `build_normalized_docs`:
candidates loop, then a literal `metric` column, then the fallback scan
over non-year non-metadata columns. -/
def rawMetric (cols : List String) (row : List PyVal) : PyVal :=
  let m1 := metricFromCandidates cols row
  let m2 :=
    if !(pyTruthy m1) && cols.contains "metric" then rowGet cols row "metric" else m1
  if !(pyTruthy m2) && cols.length > 0 then fallbackScan cols row (eligibleCols cols) m2
  else m2

/-- `str(v).strip() if v and v != "None" else None` (applied to both the
country and the metric). -/
def stdStr (v : PyVal) : PyVal :=
  if pyTruthy v && v != PyVal.str "None" then PyVal.str (pyStrip (pyStr v)) else PyVal.null

/-- A normalized document: an insertion-ordered dict from field name to
value. -/
abbrev Doc := List (String × PyVal)

/-- The base dict of `build_normalized_docs`, in its key insertion
order.  (`source_link` is the source's own redundant conditional:
both branches read `row.get("source_link")`.) -/
def mkBase (h : PyVal → ℤ) (cols : List String) (row : List PyVal)
    (country metric unit : PyVal) : Doc :=
  [("country", country),
   ("country_serial", infer_country_serial h country),
   ("metric", metric),
   ("unit", unit),
   ("sector", if cols.contains "sector" then rowGet cols row "sector" else PyVal.null),
   ("sub_sector",
     if cols.contains "sub_sector" then rowGet cols row "sub_sector" else PyVal.null),
   ("sub_sub_sector",
     if cols.contains "sub_sub_sector" then rowGet cols row "sub_sub_sector" else PyVal.null),
   ("source_link",
     if cols.contains "source_link" then rowGet cols row "source_link"
     else rowGet cols row "source_link"),
   ("source",
     if cols.contains "source" then rowGet cols row "source"
     else PyVal.str "Africa Energy Portal")]

/-- `Option FloatVal` back to a Python value (`None` or a float). -/
def optFv : Option FloatVal → PyVal
  | Option.none => PyVal.null
  | some f => PyVal.float f

/-- One year cell of the wide-form branch: an exact year column if
present, otherwise the first column containing the year as a substring
(e.g. `"2000 (GWh)"`), otherwise `None`; values go through
`to_number_safe`. -/
def yearCell (cols : List String) (row : List PyVal) (y : String) :
    Except String (String × PyVal) :=
  if cols.contains y then
    (to_number_safe (rowGet cols row y)).map (fun o => (y, optFv o))
  else
    match cols.find? (fun c => strIn y c) with
    | some c => (to_number_safe (rowGet cols row c)).map (fun o => (y, optFv o))
    | Option.none => Except.ok (y, PyVal.null)

/-- Traverse with `Except`, keeping order and propagating the first
error (models a Python loop whose body can raise). -/
def mapExcept {α β : Type} (f : α → Except String β) : List α → Except String (List β)
  | [] => Except.ok []
  | a :: r =>
    match f a with
    | Except.error e => Except.error e
    | Except.ok b => (mapExcept f r).map (fun bs => b :: bs)

/-- The `year_values` dict of `build_normalized_docs`, in year order. -/
def yearValues (cols : List String) (hasY : Bool) (row : List PyVal) :
    Except String (List (String × PyVal)) :=
  if hasY then mapExcept (yearCell cols row) YEARS
  else Except.ok (YEARS.map (fun y => (y, PyVal.null)))

/-- One iteration of the row loop of `build_normalized_docs`: `Except` for
a raised exception, `none` for a silently dropped row, `some doc` for an
emitted document.  The final keep test is
`if doc["metric"] and doc["metric"].strip()` (on a truthy non-string
metric, Python would raise on `.strip()`; unreachable, since the metric
has been through `stdStr`). -/
def buildRow (h : PyVal → ℤ) (cols : List String) (hasY : Bool) (row : List PyVal) :
    Except String (Option Doc) :=
  let country := stdStr (rawCountry cols row)
  let metric := stdStr (rawMetric cols row)
  match normalize_unit (rawUnit cols row) with
  | Except.error e => Except.error e
  | Except.ok unit =>
    match yearValues cols hasY row with
    | Except.error e => Except.error e
    | Except.ok yvs =>
      let doc : Doc := mkBase h cols row country metric unit ++ yvs
      match metric with
      | PyVal.str s => if s != "" && pyStrip s != "" then Except.ok (some doc)
                       else Except.ok Option.none
      | PyVal.null => Except.ok Option.none
      | v => if pyTruthy v then Except.error "AttributeError" else Except.ok Option.none

/-- Traverse with `Except`, collecting only the `some` results in order
(the row loop appends `doc` to `docs` only for kept rows, and an
exception aborts the whole call). -/
def mapExceptOpt {α β : Type} (f : α → Except String (Option β)) :
    List α → Except String (List β)
  | [] => Except.ok []
  | a :: r =>
    match f a with
    | Except.error e => Except.error e
    | Except.ok Option.none => mapExceptOpt f r
    | Except.ok (some b) => (mapExceptOpt f r).map (fun bs => b :: bs)

/-- `build_normalized_docs`: column detection once per batch, then the row
loop. -/
def build_normalized_docs (h : PyVal → ℤ) (df : DataFrame) : Except String (List Doc) :=
  mapExceptOpt (buildRow h df.cols (has_year_cols df.cols)) df.rows

/-- `d.get(k)` on a document: the stored value, or `None` when the key is
missing (also the behaviour of a Mongo field access on a missing field). -/
def docGet (d : Doc) (k : String) : PyVal :=
  match d.find? (fun p => p.1 == k) with
  | some p => p.2
  | Option.none => PyVal.null

/-- The key list of a document dict. -/
def docKeys (d : Doc) : List String := d.map Prod.fst

/-- `k in d` for a dict. -/
def dictHasKey (d : Doc) (k : String) : Bool := d.any (fun p => p.1 == k)

/-- `d.setdefault(k, None)`: append the key with a `None` value when it is
absent, otherwise leave the dict unchanged. -/
def dictSetdefault (k : String) (d : Doc) : Doc :=
  if dictHasKey d k then d else d ++ [(k, PyVal.null)]

/-- The `for k in REQUIRED_SCHEMA: d.setdefault(k, None)` loop of
`upsert_normalized_docs`. -/
def ensure_schema (d : Doc) : Doc :=
  REQUIRED_SCHEMA.foldl (fun acc k => dictSetdefault k acc) d

/-- The natural key of a document: `(country, metric)` when
`d.get("country")` is truthy, else `(metric, source_link)` — as the filter
dict of the replace operation. -/
def natural_key (d : Doc) : List (String × PyVal) :=
  if pyTruthy (docGet d "country") then
    [("country", docGet d "country"), ("metric", docGet d "metric")]
  else
    [("metric", docGet d "metric"), ("source_link", docGet d "source_link")]

/-- A `ReplaceOne(key, d, upsert=True)` operation. -/
structure ReplaceOp where
  filter : List (String × PyVal)
  replacement : Doc
deriving DecidableEq, Repr

/-- The `ops` list built by `upsert_normalized_docs`: each document is
schema-completed in place, then keyed. -/
def upsert_ops (docs : List Doc) : List ReplaceOp :=
  docs.map (fun d =>
    let d2 := ensure_schema d
    ReplaceOp.mk (natural_key d2) d2)

/-- Whether a stored document matches a filter dict (equality on every
filter field; a missing field reads as null, matching Mongo's null
semantics for the filters used here). -/
def docMatches (filt : List (String × PyVal)) (d : Doc) : Bool :=
  filt.all (fun kv => docGet d kv.1 == kv.2)

/-- Replace the first stored document matching the filter, if any. -/
def replaceFirst (op : ReplaceOp) : List Doc → Option (List Doc)
  | [] => Option.none
  | d :: rest =>
    if docMatches op.filter d then some (op.replacement :: rest)
    else (replaceFirst op rest).map (fun r => d :: r)

/-- Modelled from the spec: the store's replace-with-upsert semantics
(§6 store contract; the store itself — MongoDB — is an external
collaborator, not code of this repository).  A matched document is
replaced wholesale and counts as modified (the §8 round-trip property
counts a matched replace in `modified_count`); an unmatched filter
inserts the replacement and counts as upserted.  Returns
(store, upserted, modified). -/
def applyReplaceOne (st : List Doc) (op : ReplaceOp) : List Doc × ℕ × ℕ :=
  match replaceFirst op st with
  | some st2 => (st2, 0, 1)
  | Option.none => (st ++ [op.replacement], 1, 0)

/-- Modelled from the spec: `coll.bulk_write(ops, ordered=False)` — each
operation applies independently; counts are summed. -/
def bulk_write (st : List Doc) (ops : List ReplaceOp) : List Doc × ℕ × ℕ :=
  ops.foldl
    (fun acc op =>
      let r := applyReplaceOne acc.1 op
      (r.1, acc.2.1 + r.2.1, acc.2.2 + r.2.2))
    (st, 0, 0)

/-- `upsert_normalized_docs`: build the ops, return `(0, 0)` on an empty
ops list, else bulk-write.  The store is threaded explicitly; the returned
counts are `(upserted_count, modified_count)`. -/
def upsert_normalized_docs (st : List Doc) (docs : List Doc) : List Doc × ℕ × ℕ :=
  let ops := upsert_ops docs
  if ops.isEmpty then (st, 0, 0) else bulk_write st ops

/-- `[y for y in YEARS if d.get(y) is None]` — the missing years of one
document. -/
def missingOf (d : Doc) : List String :=
  YEARS.filter (fun y => docGet d y == PyVal.null)

/-- The `f"{d.get('country')}||{d.get('metric')}"` report key
(an f-string renders `None` as `"None"`). -/
def missingKey (d : Doc) : String :=
  pyStr (docGet d "country") ++ "||" ++ pyStr (docGet d "metric")

/-- `dict[k] = v`: overwrite in place when the key exists, else append. -/
def dictInsert {β : Type} (k : String) (v : β) (l : List (String × β)) :
    List (String × β) :=
  if l.any (fun p => p.1 == k) then
    l.map (fun p => if p.1 == k then (k, v) else p)
  else l ++ [(k, v)]

/-- The `missing_years` dict of the validation report. -/
def missingYearsMap (docs : List Doc) : List (String × List String) :=
  docs.foldl
    (fun acc d =>
      if (missingOf d).isEmpty then acc else dictInsert (missingKey d) (missingOf d) acc)
    []

/-- Add a unit to a metric's unit set (`metric_units[m].add(u)`); the set
is modelled as an insertion-ordered duplicate-free list. -/
def addUnit (m u : PyVal) (l : List (PyVal × List PyVal)) : List (PyVal × List PyVal) :=
  l.map (fun p => if p.1 == m then (p.1, if p.2.contains u then p.2 else p.2 ++ [u]) else p)

/-- The `metric_units` dict: `setdefault(m, set())`, then add the unit
when truthy. -/
def metricUnits (docs : List Doc) : List (PyVal × List PyVal) :=
  docs.foldl
    (fun acc d =>
      let m := docGet d "metric"
      let u := docGet d "unit"
      let acc2 := if acc.any (fun p => p.1 == m) then acc else acc ++ [(m, [])]
      if pyTruthy u then addUnit m u acc2 else acc2)
    []

/-- `inconsistent_units`: metrics observed with more than one distinct
truthy unit. -/
def inconsistent_units (docs : List Doc) : List (PyVal × List PyVal) :=
  (metricUnits docs).filter (fun p => p.2.length > 1)

/-- Modelled from the spec: `coll.distinct("country")` — the distinct
values of the field across the store, here in first-occurrence order
(the report sorts them anyway). -/
def distinctField (docs : List Doc) (k : String) : List PyVal :=
  insertOrderDedup [] (docs.map (fun d => docGet d k))

/-- Insertion sort with a boolean `le` (Python `sorted` on strings). -/
def insertSorted (le : String → String → Bool) (a : String) :
    List String → List String
  | [] => [a]
  | b :: r => if le a b then a :: b :: r else b :: insertSorted le a r

/-- Sort a list of strings (Python `sorted`, lexicographic). -/
def sortStrings (l : List String) : List String :=
  l.foldr (insertSorted (fun a b => !(decide (b < a)))) []

/-- `sorted([c for c in coll.distinct("country") if c])`.  Python `sorted`
raises `TypeError` on mixed types; here every compared value must be a
string. -/
def countriesSorted (docs : List Doc) : Except String (List String) :=
  let vals := (distinctField docs "country").filter pyTruthy
  let strs := vals.filterMap (fun v => match v with | PyVal.str s => some s | _ => Option.none)
  if strs.length = vals.length then Except.ok (sortStrings strs)
  else Except.error "TypeError"

/-- Python `round(x, 1)` on an exact value: round half to even at one
decimal place. -/
def pyRound1 (q : ℚ) : ℚ :=
  let q10 := q * 10
  let f : ℤ := ⌊q10⌋
  let r : ℚ := q10 - (f : ℚ)
  let n : ℤ :=
    if r < 1/2 then f
    else if 1/2 < r then f + 1
    else if f % 2 = 0 then f else f + 1
  (n : ℚ) / 10

/-- `completeness_by_year`: per year, the count of documents with a
non-null value (`count_documents({y: {"$ne": None}})`) and its percentage
of the total; division by a zero total would raise. -/
def completeness_by_year (docs : List Doc) (total : ℕ) :
    Except String (List (String × ℕ × ℚ)) :=
  if total = 0 then Except.error "ZeroDivisionError"
  else
    Except.ok (YEARS.map (fun y =>
      let n := (docs.filter (fun d => !(docGet d y == PyVal.null))).length
      (y, n, pyRound1 ((n : ℚ) / (total : ℚ) * 100))))

/-- The validation report dict: either the `"error"` marker entry alone,
or the computed fields. -/
structure VReport where
  error : Option String
  total_documents : ℕ
  missing_years : List (String × List String)
  inconsistent_units : List (PyVal × List PyVal)
  countries_count : ℕ
  countries : List String
  completeness_by_year : List (String × ℕ × ℚ)
deriving DecidableEq

/-- `validate_collection`: empty store yields the explicit
`{"error": "no documents found in final collection"}` marker; otherwise
the report fields are computed in source order. -/
def validate_collection (docs : List Doc) : Except String VReport :=
  if docs.isEmpty then
    Except.ok (VReport.mk (some "no documents found in final collection") 0 [] [] 0 [] [])
  else
    let total := docs.length
    match countriesSorted docs with
    | Except.error e => Except.error e
    | Except.ok cs =>
      match completeness_by_year docs total with
      | Except.error e => Except.error e
      | Except.ok comp =>
        Except.ok (VReport.mk Option.none total (missingYearsMap docs)
          (inconsistent_units docs) cs.length cs comp)

/-- The `missing_years` field of a successful validation result (empty on
a raised exception, which never occurs in the proofs below). -/
def reportMissingYears (r : Except String VReport) : List (String × List String) :=
  match r with
  | Except.ok rep => rep.missing_years
  | Except.error _ => []

/-- Metric-column selection as claim C1 reads the spec: the first pattern
in the enumeration order `metric, indicator, series, name, variable` that
has any matching column wins, and raw column order only breaks ties within
one pattern. -/
def metricColClaimOrder (cols : List String) : Option String :=
  METRIC_PATTERNS.findSome? (fun x => cols.find? (fun c => strIn x (pyLower c)))

/-- Unit normalization as claim C3 states it: absent or blank input gives
absent; otherwise the first canonical of `UNIT_MAP`, in table order, with
a variant substring of the stripped lower-cased input; otherwise the
original string stripped. -/
def normalizeUnitClaim (u : Option String) : Option String :=
  match u with
  | Option.none => Option.none
  | some raw =>
    if pyStrip raw = "" then Option.none
    else
      let s := pyLower (pyStrip raw)
      match UNIT_MAP.findSome?
          (fun cv => if cv.2.any (fun v => strIn v s) then some cv.1 else Option.none) with
      | some canon => some canon
      | Option.none => some (pyStrip raw)

/-- Embed an optional string as a Python value. -/
def optPv : Option String → PyVal
  | Option.none => PyVal.null
  | some s => PyVal.str s

/-- A fixed stand-in for Python's per-process string hash. -/
def hzero : PyVal → ℤ := fun _ => 0

/-- Concrete batch for claim C1: two columns match the metric heuristic,
with the `indicator` pattern column first in raw order and the `metric`
pattern column second. -/
def dfC1 : DataFrame := DataFrame.mk ["Indicator", "Metric"] [[PyVal.str "A", PyVal.str "B"]]

/-- Concrete batch for claim C5: a wide-form batch whose single year cell
is the string `","`. -/
def dfC5 : DataFrame := DataFrame.mk ["Indicator", "2000"] [[PyVal.str "A", PyVal.str ","]]

/-- Concrete batch for the claim C6 witness. -/
def dfC6 : DataFrame := DataFrame.mk ["Indicator"] [[PyVal.str "A"]]

/-- The single document emitted for `dfC6`. -/
def docC6 : Doc :=
  [("country", PyVal.null),
   ("country_serial", PyVal.null),
   ("metric", PyVal.str "A"),
   ("unit", PyVal.null),
   ("sector", PyVal.null),
   ("sub_sector", PyVal.null),
   ("sub_sub_sector", PyVal.null),
   ("source_link", PyVal.null),
   ("source", PyVal.str "Africa Energy Portal")] ++
  YEARS.map (fun y => (y, PyVal.null))

/-- Concrete document for the claim C7 witness. -/
def docC7 : Doc := [("country", PyVal.str "Kenya"), ("metric", PyVal.str "X")]

/-- Concrete documents for the claim C10 witness: same metric, both with
a null country, different missing-year sets. -/
def docC10a : Doc := [("metric", PyVal.str "GDP")]

/-- Second C10 witness document. -/
def docC10b : Doc := [("metric", PyVal.str "GDP"), ("2000", PyVal.float (FloatVal.fin 1))]

/-- C2: the claim says `to_number_safe` never raises and degrades every
parse failure to absent; but on the input `","` the comma removal leaves
the empty string and `s.split()[0]` raises an uncaught `IndexError`,
contradicting the function's own contract ("float, or None if not
convertible"). -/
theorem c2_to_number_safe_raises_on_comma :
    to_number_safe (PyVal.str ",") = Except.error "IndexError" := by decide

/-- C5: the claim says every raw batch maps to one document per
metric-bearing record with parse anomalies degraded silently; but a batch
whose year cell is `","` makes `build_normalized_docs` raise the
`to_number_safe` `IndexError` and emit nothing, although the record's
metric `"A"` is non-empty. -/
theorem c5_build_raises_on_comma_year :
    build_normalized_docs hzero dfC5 = Except.error "IndexError" := by decide

/-- C8: on an empty store, `validate_collection` returns the explicit
`{"error": "no documents found in final collection"}` marker dict rather
than raising. -/
theorem c8_validate_empty_marker :
    validate_collection [] =
      Except.ok (VReport.mk (some "no documents found in final collection") 0 [] [] 0 [] []) :=
  rfl

/-- C4, counterexample: the claim says every non-finite numeric input
(e.g. infinity) yields absent, but the code only tests `math.isnan`, so
the float infinity is returned as a (non-finite) float, not absent. -/
theorem c4_nonfinite_counterexample :
    to_number_safe (PyVal.float FloatVal.inf) = Except.ok (some FloatVal.inf) ∧
    ¬ to_number_safe (PyVal.float FloatVal.inf) = Except.ok Option.none := by decide

/-- C4, amended: a finite numeric input (int or finite float) is returned
as that number as a float; the float NaN degrades to absent (via the
string path, since `str(nan) = "nan"` is a null token); the infinities are
returned unchanged, not absent. -/
theorem c4_numeric_behavior :
    (∀ q : ℚ, to_number_safe (PyVal.float (FloatVal.fin q)) =
        Except.ok (some (FloatVal.fin q))) ∧
    (∀ z : ℤ, to_number_safe (PyVal.int z) = Except.ok (some (FloatVal.fin (z : ℚ)))) ∧
    to_number_safe (PyVal.float FloatVal.nan) = Except.ok Option.none ∧
    to_number_safe (PyVal.float FloatVal.inf) = Except.ok (some FloatVal.inf) ∧
    to_number_safe (PyVal.float FloatVal.ninf) = Except.ok (some FloatVal.ninf) := by
  refine ⟨fun q => rfl, fun z => rfl, by decide, rfl, rfl⟩

/-- C1, counterexample: in the batch `dfC1` the claim's
enumeration-priority reading selects the `"Metric"` column (pattern
`metric` precedes `indicator`), whose value is `"B"`; the code emits the
document with metric `"A"`, the value of the first matching column in raw
column order (`"Indicator"`). -/
theorem c1_priority_counterexample :
    metricColClaimOrder dfC1.cols = some "Metric" ∧
    rowGet dfC1.cols [PyVal.str "A", PyVal.str "B"] "Metric" = PyVal.str "B" ∧
    (build_normalized_docs hzero dfC1).map (List.map (fun d => docGet d "metric")) =
      Except.ok [PyVal.str "A"] ∧
    PyVal.str "A" ≠ PyVal.str "B" := by decide

/-- A document always matches its own natural key: the filter fields are
read off the document itself. -/
theorem docMatches_natural_key_self (d : Doc) : docMatches (natural_key d) d = true := by
  by_cases h : pyTruthy (docGet d "country") <;> simp [natural_key, docMatches, h]

/-- C9 (store semantics modelled from the spec's §6 contract): upserting
the same document into an empty store twice inserts it once
(`upserted_count = 1`), and the second call matches the stored document by
its natural key, replaces it, and reports `modified_count = 1`; afterwards
exactly one stored document matches the key. -/
theorem c9_upsert_idempotent (d : Doc) :
    upsert_normalized_docs [] [d] = ([ensure_schema d], 1, 0) ∧
    upsert_normalized_docs [ensure_schema d] [d] = ([ensure_schema d], 0, 1) ∧
    ((upsert_normalized_docs [ensure_schema d] [d]).1.filter
      (fun x => docMatches (natural_key (ensure_schema d)) x)).length = 1 := by
  have hm := docMatches_natural_key_self (ensure_schema d)
  refine ⟨?_, ?_, ?_⟩ <;>
    simp [upsert_normalized_docs, upsert_ops, bulk_write, applyReplaceOne, replaceFirst, hm]

/-- Lower-casing preserves emptiness. -/
theorem pyLower_eq_empty (t : String) : pyLower t = "" ↔ t = "" := by
  cases t with
  | mk l =>
    cases l with
    | nil => simp [pyLower]
    | cons c cs =>
      constructor <;> intro h
      · simp [pyLower, String.ext_iff] at h
      · simp [String.ext_iff] at h

/-- C3: `normalize_unit` implements exactly the claimed behaviour on
string-or-absent input — absent or blank gives absent, otherwise the
first canonical of `UNIT_MAP` in table order with a variant substring of
the stripped lower-cased input, otherwise the original stripped string —
and it never raises on such input (the result is always `ok`).  The
code's residual `if s in ["%","percent","percentage"]` branch is dead,
since those strings are matched by the `"%"` variants in the table. -/
theorem c3_normalize_unit_spec (u : Option String) :
    normalize_unit (optPv u) = Except.ok (optPv (normalizeUnitClaim u)) := by
  cases u with
  | none => rfl
  | some raw =>
    by_cases hr : raw = ""
    · subst hr; rfl
    · have htr : pyTruthy (PyVal.str raw) = true := by simp [pyTruthy, hr]
      have h0 : pyLower "" = "" := rfl
      by_cases ht : pyStrip raw = ""
      · unfold normalize_unit normalizeUnitClaim
        simp only [optPv, pyStr, htr, ht, h0, if_true, ite_true]
      · have hs : ¬ pyLower (pyStrip raw) = "" := fun h => ht ((pyLower_eq_empty _).mp h)
        unfold normalize_unit normalizeUnitClaim
        simp only [optPv, pyStr, htr, if_true, ite_true]
        rw [if_neg hs, if_neg ht]
        split
        · rename_i canon heq
          rw [heq]
        · rename_i heq
          have hnot : ¬ pyLower (pyStrip raw) ∈ (["%", "percent", "percentage"] : List String) := by
            intro hmem
            simp only [List.mem_cons, List.mem_singleton, List.not_mem_nil, or_false] at hmem
            rcases hmem with h | h | h <;> simp only [h] at heq <;>
              exact absurd heq (by decide)
          rw [heq, if_neg hnot]

/-- `find?` returns the head of the filtered list. -/
theorem find?_eq_head?_filter {α : Type} (p : α → Bool) (l : List α) :
    l.find? p = (l.filter p).head? := by
  induction l with
  | nil => rfl
  | cons a r ih =>
    by_cases h : p a = true
    · rw [List.find?_cons_of_pos _ h, List.filter_cons_of_pos h]
      rfl
    · rw [List.find?_cons_of_neg _ (by simp [h]),
        List.filter_cons_of_neg (by simp [h]), ih]

/-- Filtering a mapped list is mapping the filtered list. -/
theorem filter_map_comm {α β : Type} (f : α → β) (p : β → Bool) (l : List α) :
    (l.map f).filter p = (l.filter (fun a => p (f a))).map f := by
  induction l with
  | nil => rfl
  | cons a r ih =>
    by_cases h : p (f a) = true <;>
      simp [List.filter_cons, h, ih]

/-- Inserting a duplicate-free list of keys unseen so far into a dict
keeps them all, in order. -/
theorem insertOrderDedup_nodup {α : Type} [BEq α] [LawfulBEq α] :
    ∀ (l : List α), l.Nodup → ∀ seen : List α,
      (∀ a ∈ l, seen.contains a = false) → insertOrderDedup seen l = l := by
  intro l
  induction l with
  | nil => intro _ seen _; rfl
  | cons a r ih =>
    intro hnd seen hs
    have ha : seen.contains a = false := hs a (List.mem_cons_self a r)
    rw [insertOrderDedup, ha]
    simp only [Bool.false_eq_true, if_false]
    congr 1
    refine ih (List.Nodup.of_cons hnd) (a :: seen) (fun b hb => ?_)
    have hba : ¬ b = a := fun h => (List.nodup_cons.mp hnd).1 (h ▸ hb)
    have hbs : ¬ b ∈ seen := by simpa using hs b (List.mem_cons_of_mem _ hb)
    simp [List.contains_cons, hba, hbs]

/-- Under lower-case-distinct column names, a column is the only one with
its lower-casing. -/
theorem filter_lower_self :
    ∀ (cols : List String), (cols.map pyLower).Nodup →
      ∀ c ∈ cols, cols.filter (fun x => pyLower x == pyLower c) = [c] := by
  intro cols
  induction cols with
  | nil => intro _ c hc; cases hc
  | cons a r ih =>
    intro hnd c hc
    rw [List.map_cons, List.nodup_cons] at hnd
    rcases List.mem_cons.mp hc with h | h
    · subst h
      rw [List.filter_cons_of_pos (by simp)]
      have hrest : r.filter (fun x => pyLower x == pyLower c) = [] := by
        rw [List.filter_eq_nil_iff]
        intro x hx hcontra
        exact hnd.1 (by
          have hxa : pyLower x = pyLower c := by simpa using hcontra
          exact hxa ▸ List.mem_map_of_mem pyLower hx)
      rw [hrest]
    · have hne : (pyLower a == pyLower c) = false := by
        have hac : ¬ pyLower a = pyLower c := fun hcontra =>
          hnd.1 (hcontra ▸ List.mem_map_of_mem pyLower h)
        simpa using hac
      rw [List.filter_cons_of_neg (by simp [hne])]
      exact ih hnd.2 c h

/-- Under lower-case-distinct column names, `lc_map[c.lower()]` is `c`
itself for any column `c`. -/
theorem lcGet_self {cols : List String} (hnd : (cols.map pyLower).Nodup)
    {c : String} (hc : c ∈ cols) : lcGet cols (pyLower c) = some c := by
  rw [lcGet, filter_lower_self cols hnd c hc]
  rfl

/-- C1, amended: when the (lower-cased) column names of the batch are
pairwise distinct, the metric-candidate loop selects the first column in
raw column order whose lower-cased name contains any of the patterns
`metric, indicator, series, name, variable`; the enumeration order of the
patterns plays no role. -/
theorem c1_metric_selection_raw_order (cols : List String) (row : List PyVal)
    (hnd : (cols.map pyLower).Nodup) :
    metricFromCandidates cols row =
      match cols.find? (fun c => isMetricName (pyLower c)) with
      | some c => rowGet cols row c
      | Option.none => PyVal.null := by
  have h1 : lcKeys cols = cols.map pyLower :=
    insertOrderDedup_nodup (cols.map pyLower) hnd [] (fun a _ => rfl)
  have h2 : metric_candidates cols =
      (cols.filter (fun c => isMetricName (pyLower c))).map pyLower := by
    rw [metric_candidates, h1, filter_map_comm]
  rw [metricFromCandidates, h2, find?_eq_head?_filter]
  cases hcf : cols.filter (fun c => isMetricName (pyLower c)) with
  | nil => rfl
  | cons c rest =>
    have hcmem := List.mem_filter.mp (hcf ▸ List.mem_cons_self c rest)
    have hne : ¬ pyLower c = "" := by
      intro h
      rw [h] at hcmem
      exact absurd hcmem.2 (by decide)
    have hcc : ¬ c = "" := fun h => hne (by rw [h]; rfl)
    have hcne : (c != "") = true := by simpa using hcc
    rw [List.map_cons, firstCandVal, lcGet_self hnd hcmem.1]
    simp [hcne]

/-- C1 witness: the amended selection rule applied to the `dfC1` batch. -/
theorem c1_metric_selection_raw_order_witness :
    metricFromCandidates ["Indicator", "Metric"] [PyVal.str "A", PyVal.str "B"] =
      PyVal.str "A" := by
  rw [c1_metric_selection_raw_order ["Indicator", "Metric"] [PyVal.str "A", PyVal.str "B"]
    (by decide)]
  decide

/-- Every document collected by `mapExceptOpt` comes from some input the
row function accepted. -/
theorem mapExceptOpt_mem {α β : Type} (f : α → Except String (Option β)) :
    ∀ (l : List α) (res : List β), mapExceptOpt f l = Except.ok res →
      ∀ b ∈ res, ∃ a ∈ l, f a = Except.ok (some b) := by
  intro l
  induction l with
  | nil =>
    intro res h b hb
    rw [mapExceptOpt] at h
    cases h
    cases hb
  | cons a r ih =>
    intro res h b hb
    rw [mapExceptOpt] at h
    cases hf : f a with
    | error e => rw [hf] at h; cases h
    | ok ob =>
      rw [hf] at h
      cases ob with
      | none =>
        obtain ⟨a2, ha2, hfa2⟩ := ih res h b hb
        exact ⟨a2, List.mem_cons_of_mem _ ha2, hfa2⟩
      | some b0 =>
        cases hr : mapExceptOpt f r with
        | error e => rw [hr] at h; cases h
        | ok res2 =>
          rw [hr] at h
          simp only [Except.map] at h
          cases h
          rcases List.mem_cons.mp hb with hbb | hbr
          · exact ⟨a, List.mem_cons_self a r, hbb ▸ hf⟩
          · obtain ⟨a2, ha2, hfa2⟩ := ih res2 hr b hbr
            exact ⟨a2, List.mem_cons_of_mem _ ha2, hfa2⟩

/-- Any successful year-cell result is keyed by its year. -/
theorem yearCell_fst (cols : List String) (row : List PyVal) (y : String)
    (b : String × PyVal) (h : yearCell cols row y = Except.ok b) : b.1 = y := by
  rw [yearCell] at h
  by_cases hc : cols.contains y = true
  · rw [if_pos hc] at h
    cases hv : to_number_safe (rowGet cols row y) with
    | error e => rw [hv] at h; cases h
    | ok o => rw [hv] at h; simp only [Except.map] at h; cases h; rfl
  · rw [if_neg hc] at h
    cases hfind : cols.find? (fun c => strIn y c) with
    | some c =>
      simp only [hfind] at h
      cases hv : to_number_safe (rowGet cols row c) with
      | error e => rw [hv] at h; cases h
      | ok o => rw [hv] at h; simp only [Except.map] at h; cases h; rfl
    | none => simp only [hfind] at h; cases h; rfl

/-- A successful `mapExcept` over the year cells keeps the year list as
its key list. -/
theorem mapExcept_yearCell_keys (cols : List String) (row : List PyVal) :
    ∀ (ys : List String) (res : List (String × PyVal)),
      mapExcept (yearCell cols row) ys = Except.ok res → res.map Prod.fst = ys := by
  intro ys
  induction ys with
  | nil =>
    intro res h
    rw [mapExcept] at h
    cases h
    rfl
  | cons y yr ih =>
    intro res h
    rw [mapExcept] at h
    cases hcy : yearCell cols row y with
    | error e => rw [hcy] at h; cases h
    | ok b =>
      rw [hcy] at h
      cases hr : mapExcept (yearCell cols row) yr with
      | error e => rw [hr] at h; cases h
      | ok res2 =>
        rw [hr] at h
        simp only [Except.map] at h
        cases h
        rw [List.map_cons, ih res2 hr, yearCell_fst cols row y b hcy]

/-- The year dict of a successfully processed row is keyed exactly by
`YEARS`, in order. -/
theorem yearValues_keys (cols : List String) (hasY : Bool) (row : List PyVal)
    (yvs : List (String × PyVal)) (h : yearValues cols hasY row = Except.ok yvs) :
    yvs.map Prod.fst = YEARS := by
  rw [yearValues] at h
  cases hasY with
  | true => exact mapExcept_yearCell_keys cols row YEARS yvs h
  | false =>
    simp only [Bool.false_eq_true, if_false] at h
    cases h
    rw [List.map_map]
    exact List.map_id' YEARS

example : to_number_safe (PyVal.str "12,345 (est)") =
    Except.ok (some (FloatVal.fin 12345)) := by decide
example : to_number_safe (PyVal.str "abc") = Except.ok Option.none := by decide
example : to_number_safe (PyVal.str "N/A") = Except.ok Option.none := by decide
example : to_number_safe (PyVal.float FloatVal.nan) = Except.ok Option.none := by decide
example : normalize_unit (PyVal.str " Percent ") = Except.ok (PyVal.str "%") := by decide
example : normalize_unit (PyVal.str "USD million") = Except.ok (PyVal.str "USD million") := by
  decide
example : normalize_unit PyVal.null = Except.ok PyVal.null := by decide
example :
    (build_normalized_docs hzero dfC1).map (List.map (fun d => docGet d "unit")) =
      Except.ok [PyVal.null] := by decide

/-- `stdStr` always yields a string or `None`. -/
theorem stdStr_cases (v : PyVal) :
    (∃ s, stdStr v = PyVal.str s) ∨ stdStr v = PyVal.null := by
  rw [stdStr]
  by_cases h : (pyTruthy v && v != PyVal.str "None") = true
  · rw [if_pos h]
    exact Or.inl ⟨pyStrip (pyStr v), rfl⟩
  · rw [if_neg h]
    exact Or.inr rfl

/-- Every document emitted for a row carries exactly the
`REQUIRED_SCHEMA` key list, in schema order. -/
theorem buildRow_keys (h : PyVal → ℤ) (cols : List String) (hasY : Bool)
    (row : List PyVal) (d : Doc)
    (hb : buildRow h cols hasY row = Except.ok (some d)) :
    docKeys d = REQUIRED_SCHEMA := by
  rw [buildRow] at hb
  cases hnu : normalize_unit (rawUnit cols row) with
  | error e => simp only [hnu] at hb; cases hb
  | ok unit =>
    simp only [hnu] at hb
    cases hyv : yearValues cols hasY row with
    | error e => simp only [hyv] at hb; cases hb
    | ok yvs =>
      simp only [hyv] at hb
      have hkeys : docKeys (mkBase h cols row (stdStr (rawCountry cols row))
          (stdStr (rawMetric cols row)) unit ++ yvs) = REQUIRED_SCHEMA := by
        rw [docKeys, List.map_append, REQUIRED_SCHEMA]
        have h9 : (mkBase h cols row (stdStr (rawCountry cols row))
            (stdStr (rawMetric cols row)) unit).map Prod.fst =
            ["country", "country_serial", "metric", "unit", "sector", "sub_sector",
             "sub_sub_sector", "source_link", "source"] := rfl
        rw [h9, yearValues_keys cols hasY row yvs hyv]
      rcases stdStr_cases (rawMetric cols row) with ⟨s, hm⟩ | hm
      · simp only [hm] at hb
        by_cases hcond : (s != "" && pyStrip s != "") = true
        · rw [if_pos hcond] at hb
          cases hb
          rw [← hm]
          exact hkeys
        · rw [if_neg hcond] at hb
          cases hb
      · simp only [hm] at hb
        cases hb

/-- `setdefault` on an existing key is the identity. -/
theorem dictSetdefault_of_has (k : String) (d : Doc) (hk : dictHasKey d k = true) :
    dictSetdefault k d = d := by
  rw [dictSetdefault, hk]
  rfl

/-- The `setdefault` loop over keys the dict already has is the
identity. -/
theorem foldl_setdefault_id :
    ∀ (ks : List String) (d : Doc), (∀ k ∈ ks, dictHasKey d k = true) →
      ks.foldl (fun acc k => dictSetdefault k acc) d = d := by
  intro ks
  induction ks with
  | nil => intro d _; rfl
  | cons k kr ih =>
    intro d hall
    rw [List.foldl_cons, dictSetdefault_of_has k d (hall k (List.mem_cons_self k kr))]
    exact ih d (fun k2 h2 => hall k2 (List.mem_cons_of_mem _ h2))

/-- On a document that already has the full schema, `ensure_schema` is the
identity. -/
theorem ensure_schema_id (d : Doc) (hkeys : docKeys d = REQUIRED_SCHEMA) :
    ensure_schema d = d := by
  refine foldl_setdefault_id REQUIRED_SCHEMA d (fun k hk => ?_)
  rw [dictHasKey, List.any_eq_true]
  have hmem : k ∈ docKeys d := hkeys ▸ hk
  obtain ⟨p, hp, hpk⟩ := List.mem_map.mp hmem
  exact ⟨p, hp, by simp [hpk]⟩

/-- Every op of `upsert_normalized_docs` is the schema-completed document
with its natural key. -/
theorem upsert_ops_mem (docs : List Doc) (op : ReplaceOp) (hop : op ∈ upsert_ops docs) :
    ∃ d ∈ docs, op = ReplaceOp.mk (natural_key (ensure_schema d)) (ensure_schema d) := by
  rw [upsert_ops] at hop
  obtain ⟨d, hd, hde⟩ := List.mem_map.mp hop
  exact ⟨d, hd, by rw [← hde]⟩

/-- Every document of a successful `build_normalized_docs` run has
exactly the schema key list. -/
theorem build_docs_keys (h : PyVal → ℤ) (df : DataFrame) (docs : List Doc)
    (hb : build_normalized_docs h df = Except.ok docs) :
    ∀ d ∈ docs, docKeys d = REQUIRED_SCHEMA := by
  unfold build_normalized_docs at hb
  intro d hd
  obtain ⟨row, _, hrow⟩ :=
    mapExceptOpt_mem (buildRow h df.cols (has_year_cols df.cols)) df.rows docs hb d hd
  exact buildRow_keys h df.cols (has_year_cols df.cols) row d hrow

/-- Ops built from full-schema documents replace with full-schema
documents. -/
theorem upsert_docs_keys (docs : List Doc)
    (h1 : ∀ d ∈ docs, docKeys d = REQUIRED_SCHEMA) :
    ∀ op ∈ upsert_ops docs, docKeys op.replacement = REQUIRED_SCHEMA := by
  intro op hop
  obtain ⟨d, hd, hde⟩ := upsert_ops_mem docs op hop
  have hrep : op.replacement = ensure_schema d := by rw [hde]
  rw [hrep, ensure_schema_id d (h1 d hd)]
  exact h1 d hd

/-- C6: every document emitted by the Schema Normalizer carries exactly
the `REQUIRED_SCHEMA` key set (in schema order — absent values are
explicit nulls under those keys, never missing keys), and every
replacement document submitted by the Upsert Engine for such a batch
carries exactly the same key set. -/
theorem c6_schema_keys (h : PyVal → ℤ) (df : DataFrame) (docs : List Doc)
    (hb : build_normalized_docs h df = Except.ok docs) :
    (∀ d ∈ docs, docKeys d = REQUIRED_SCHEMA) ∧
    (∀ op ∈ upsert_ops docs, docKeys op.replacement = REQUIRED_SCHEMA) :=
  And.intro (build_docs_keys h df docs hb)
    (upsert_docs_keys docs (build_docs_keys h df docs hb))

/-- C6 witness: the single document of the `dfC6` batch has exactly the
schema keys. -/
theorem c6_schema_keys_witness : docKeys docC6 = REQUIRED_SCHEMA :=
  (c6_schema_keys hzero dfC6 [docC6] (by decide)).1 docC6 (by decide)

/-- `find?` over an append searches the left part first. -/
theorem find?_append_dist {α : Type} (p : α → Bool) (l1 l2 : List α) :
    (l1 ++ l2).find? p =
      match l1.find? p with
      | some a => some a
      | Option.none => l2.find? p := by
  induction l1 with
  | nil => rfl
  | cons a r ih =>
    by_cases h : p a = true
    · rw [List.cons_append, List.find?_cons_of_pos _ h, List.find?_cons_of_pos _ h]
    · rw [List.cons_append, List.find?_cons_of_neg _ (by simp [h]),
        List.find?_cons_of_neg _ (by simp [h]), ih]

/-- `setdefault` (with a null default) never changes what `get` sees. -/
theorem docGet_setdefault (k2 k : String) (d : Doc) :
    docGet (dictSetdefault k2 d) k = docGet d k := by
  rw [dictSetdefault]
  by_cases h : dictHasKey d k2 = true
  · rw [if_pos h]
  · rw [if_neg h, docGet, docGet, find?_append_dist]
    cases hf : d.find? (fun p => p.1 == k) with
    | some p => simp only [hf]
    | none =>
      simp only [hf]
      by_cases hk : (k2 == k) = true
      · rw [List.find?_cons_of_pos _ (by simpa using hk)]
      · rw [List.find?_cons_of_neg _ (by simpa using hk)]
        rfl

/-- Schema completion never changes what `get` sees on any key. -/
theorem docGet_ensure (d : Doc) (k : String) :
    docGet (ensure_schema d) k = docGet d k := by
  rw [ensure_schema]
  have hgen : ∀ (ks : List String) (d0 : Doc),
      docGet (ks.foldl (fun acc k2 => dictSetdefault k2 acc) d0) k = docGet d0 k := by
    intro ks
    induction ks with
    | nil => intro d0; rfl
    | cons k2 kr ih =>
      intro d0
      rw [List.foldl_cons, ih (dictSetdefault k2 d0), docGet_setdefault]
  exact hgen REQUIRED_SCHEMA d

/-- C7: the i-th op of an upsert batch replaces with the i-th document
(schema-completed) in full — full-document replacement, not a field
merge — and its filter is the natural key: `(country, metric)` when the
document's country is a present (non-empty) string, and
`(metric, source_link)` when its country is null. -/
theorem c7_upsert_natural_key (docs : List Doc) (i : ℕ) (d : Doc)
    (hd : docs.get? i = some d) :
    ((upsert_ops docs).get? i).map ReplaceOp.replacement = some (ensure_schema d) ∧
    (∀ s : String, ¬ s = "" → docGet d "country" = PyVal.str s →
      ((upsert_ops docs).get? i).map ReplaceOp.filter =
        some [("country", PyVal.str s), ("metric", docGet (ensure_schema d) "metric")]) ∧
    (docGet d "country" = PyVal.null →
      ((upsert_ops docs).get? i).map ReplaceOp.filter =
        some [("metric", docGet (ensure_schema d) "metric"),
              ("source_link", docGet (ensure_schema d) "source_link")]) := by
  have hget : (upsert_ops docs).get? i =
      some (ReplaceOp.mk (natural_key (ensure_schema d)) (ensure_schema d)) := by
    rw [upsert_ops, List.get?_map, hd]
    rfl
  have hfil : (ReplaceOp.mk (natural_key (ensure_schema d)) (ensure_schema d)).filter =
      natural_key (ensure_schema d) := by with_reducible rfl
  refine ⟨by rw [hget]; simp only [Option.map_some'], ?_, ?_⟩
  · intro s hs hc
    have hce : docGet (ensure_schema d) "country" = PyVal.str s := by
      rw [docGet_ensure, hc]
    have htr : pyTruthy (docGet (ensure_schema d) "country") = true := by
      rw [hce]
      simpa [pyTruthy] using hs
    rw [hget]
    simp only [Option.map_some', hfil]
    rw [natural_key, if_pos htr, hce]
  · intro hc
    have hce : docGet (ensure_schema d) "country" = PyVal.null := by
      rw [docGet_ensure, hc]
    have htr : ¬ pyTruthy (docGet (ensure_schema d) "country") = true := by
      rw [hce]
      simp [pyTruthy]
    rw [hget]
    simp only [Option.map_some', hfil]
    rw [natural_key, if_neg htr]

/-- C7 witness: the op for the concrete document `docC7`. -/
theorem c7_upsert_natural_key_witness :
    ((upsert_ops [docC7]).get? 0).map ReplaceOp.filter =
      some [("country", PyVal.str "Kenya"),
            ("metric", docGet (ensure_schema docC7) "metric")] :=
  (c7_upsert_natural_key [docC7] 0 docC7 rfl).2.1 "Kenya" (by decide) (by decide)

/-- Overwriting the only key of a one-entry dict keeps one entry with the
new value. -/
theorem dictInsert_same (k : String) (v1 v2 : List String) :
    dictInsert k v2 [(k, v1)] = [(k, v2)] := by
  rw [dictInsert]
  simp

/-- The `missing_years` fold over two documents with the same report key:
the second insertion overwrites the first. -/
theorem missingYearsMap_pair (d1 d2 : Doc)
    (h1 : (missingOf d1).isEmpty = false) (h2 : (missingOf d2).isEmpty = false)
    (hk : missingKey d1 = missingKey d2) :
    missingYearsMap [d1, d2] = [(missingKey d2, missingOf d2)] := by
  rw [missingYearsMap, List.foldl_cons, List.foldl_cons, List.foldl_nil]
  simp only [h1, h2, Bool.false_eq_true, if_false]
  have e1 : dictInsert (missingKey d1) (missingOf d1) [] =
      [(missingKey d1, missingOf d1)] := rfl
  rw [e1, hk, dictInsert_same]

/-- On a non-empty store whose country values sort successfully, the
validation report is produced and its `missing_years` field is the
computed map. -/
theorem reportMissingYears_validate (docs : List Doc) (hne : docs.isEmpty = false)
    (cs : List String) (hcs : countriesSorted docs = Except.ok cs)
    (hnz : ¬ docs.length = 0) :
    reportMissingYears (validate_collection docs) = missingYearsMap docs := by
  rw [validate_collection]
  simp only [hne, Bool.false_eq_true, if_false, hcs, completeness_by_year]
  rw [if_neg hnz]
  rfl

/-- C10: two persisted documents with a null country and the same metric
collide on the `missing_years` report key `"None||<metric>"`; the
later-scanned document's missing-year list overwrites the earlier one, so
the report holds one entry although two documents have missing years. -/
theorem c10_missing_years_key_collision (d1 d2 : Doc)
    (hc1 : docGet d1 "country" = PyVal.null) (hc2 : docGet d2 "country" = PyVal.null)
    (hm : docGet d1 "metric" = docGet d2 "metric")
    (h1 : (missingOf d1).isEmpty = false) (h2 : (missingOf d2).isEmpty = false) :
    missingKey d1 = missingKey d2 ∧
    missingKey d2 = "None||" ++ pyStr (docGet d2 "metric") ∧
    reportMissingYears (validate_collection [d1, d2]) =
      [(missingKey d2, missingOf d2)] ∧
    ([d1, d2].filter (fun d => !(missingOf d).isEmpty)).length = 2 := by
  have hk : missingKey d1 = missingKey d2 := by
    rw [missingKey, missingKey, hc1, hc2, hm]
  have hcs : countriesSorted [d1, d2] = Except.ok [] := by
    rw [countriesSorted, distinctField]
    simp only [List.map_cons, List.map_nil, hc1, hc2]
    rfl
  refine ⟨hk, by rw [missingKey, hc2]; rfl, ?_, ?_⟩
  · rw [reportMissingYears_validate [d1, d2] rfl [] hcs (by simp)]
    exact missingYearsMap_pair d1 d2 h1 h2 hk
  · simp [List.filter, h1, h2]

/-- C10 witness: the two concrete documents `docC10a`, `docC10b`. -/
theorem c10_missing_years_key_collision_witness :
    missingKey docC10a = missingKey docC10b ∧
    missingKey docC10b = "None||" ++ pyStr (docGet docC10b "metric") ∧
    reportMissingYears (validate_collection [docC10a, docC10b]) =
      [(missingKey docC10b, missingOf docC10b)] ∧
    ([docC10a, docC10b].filter (fun d => !(missingOf d).isEmpty)).length = 2 :=
  c10_missing_years_key_collision docC10a docC10b (by decide) (by decide) (by decide)
    (by decide) (by decide)
